import Mathlib

/-!
Shallow embedding of the Smart Sheet motor controller core
(`src/main.cpp`): the shared control state, the command parser and
dispatcher, and the pattern engine (constant and wave generators).

Modelling conventions:
* C `int` fields are modelled as `ℤ`; the `unsigned long` millisecond
  clock is modelled as `Nat` with wrap-around subtraction at width 32.
* The float computation of the wave generator is idealized over `ℝ`
  with `Real.sin`, and the C `(int)` cast is truncation toward zero.
* Output writes (`ledcWrite i duty`) are collected as an ordered list
  of channel/duty pairs, the trace of calls into the Output Sink.
* Arduino `String` operations are modelled on `String` via its
  character list (`toUpperCase`, `startsWith`, `substring`, `toInt`).
-/

namespace SmartSheet

/-- Pattern modes of the controller (`enum PatternMode`). -/
inductive PatternMode where
  | MODE_STOP
  | MODE_CONSTANT
  | MODE_WAVE
deriving DecidableEq

/-- The global mutable state of the controller: `currentMode`,
`globalIntensity`, `waveSpeed`, `currentWavePosition`, `lastWaveUpdate`
and the per-channel `motorIntensities` array. -/
@[ext] structure ControlState where
  currentMode : PatternMode
  globalIntensity : ℤ
  waveSpeed : ℤ
  currentWavePosition : ℤ
  lastWaveUpdate : Nat
  motorIntensities : Fin 8 → ℤ

/-- The state created at startup: mode `MODE_STOP`, intensity 128,
wave speed 100, wave position 0, timestamp 0, all motors at 0. -/
def initialState : ControlState :=
  { currentMode := PatternMode.MODE_STOP
    globalIntensity := 128
    waveSpeed := 100
    currentWavePosition := 0
    lastWaveUpdate := 0
    motorIntensities := fun _ => 0 }

/-- Wrap-around unsigned 32-bit subtraction `a - b`, the semantics of
`unsigned long` subtraction in `currentTime - lastWaveUpdate`. -/
def usub32 (a b : Nat) : Nat :=
  (a % 2 ^ 32 + (2 ^ 32 - b % 2 ^ 32)) % 2 ^ 32

/-- The C cast `(unsigned long) v` of a (possibly negative) `int`. -/
def ulongOfInt (v : ℤ) : Nat := (v % 2 ^ 32).toNat

/-- The C `(int)` cast of a floating value: truncation toward zero. -/
noncomputable def ctrunc (x : ℝ) : ℤ := if 0 ≤ x then ⌊x⌋ else -⌊-x⌋

/-- ASCII upper-casing of a whole string (`String::toUpperCase`). -/
def upperStr (s : String) : String := String.mk (s.data.map Char.toUpper)

/-- `String::startsWith`: `p` is an initial segment of `s`. -/
def startsWithL (s p : String) : Bool :=
  decide (s.data.take p.data.length = p.data)

/-- `String::substring(n)`: drop the first `n` characters. -/
def dropL (s : String) (n : Nat) : String := String.mk (s.data.drop n)

/-- Digit-accumulation phase of `atol`: consume leading digits into the
accumulator, stop at the first non-digit. -/
def atoiDigits : List Char → ℤ → ℤ
  | [], acc => acc
  | c :: cs, acc =>
    if c.isDigit then atoiDigits cs (10 * acc + ((c.toNat : ℤ) - 48)) else acc

/-- `atol` semantics of Arduino `String::toInt`: skip leading
whitespace, accept one optional sign, then read a (possibly empty)
run of digits; an empty run yields 0. -/
def atoiChars : List Char → ℤ
  | [] => 0
  | c :: cs =>
    if c.isWhitespace then atoiChars cs
    else if c = '-' then -(atoiDigits cs 0)
    else if c = '+' then atoiDigits cs 0
    else atoiDigits (c :: cs) 0

/-- Arduino `String::toInt`. -/
def arduinoToInt (s : String) : ℤ := atoiChars s.data

/-- Whether the first character of a list is a digit. -/
def headDigit : List Char → Bool
  | [] => false
  | c :: _ => c.isDigit

/-- Whether `atol` actually finds a number in the list: after optional
whitespace and an optional single sign there is at least one digit. -/
def numberStart : List Char → Bool
  | [] => false
  | c :: cs =>
    if c.isWhitespace then numberStart cs
    else if c = '-' ∨ c = '+' then headDigit cs
    else c.isDigit

/-- Rendering of a mode for the STATUS line (`sendStatus`). -/
def modeString : PatternMode → String
  | PatternMode.MODE_STOP => "STOP"
  | PatternMode.MODE_CONSTANT => "CONSTANT"
  | PatternMode.MODE_WAVE => "WAVE"

/-- `sendStatus`: the STATUS response line. -/
def sendStatus (s : ControlState) : String :=
  "STATUS:MODE:" ++ modeString s.currentMode ++ ",INTENSITY:"
    ++ toString s.globalIntensity ++ ",SPEED:" ++ toString s.waveSpeed

/-- One iteration of the `stopAllMotors` loop: zero motor `i` and
write 0 to its channel. -/
def stopStep (acc : ControlState × List (Fin 8 × ℤ)) (i : Fin 8) :
    ControlState × List (Fin 8 × ℤ) :=
  ({ acc.1 with motorIntensities := Function.update acc.1.motorIntensities i 0 },
   acc.2 ++ [(i, (0 : ℤ))])

/-- `stopAllMotors`: zero every motor intensity and write 0 duty to
every channel. -/
def stopAllMotors (s : ControlState) : ControlState × List (Fin 8 × ℤ) :=
  (List.finRange 8).foldl stopStep (s, [])

/-- `setMode`: mode dispatch with side effects and response. -/
def setMode (mode : String) (s : ControlState) :
    ControlState × List (Fin 8 × ℤ) × String :=
  if mode = "STOP" then
    let r := stopAllMotors { s with currentMode := PatternMode.MODE_STOP }
    (r.1, r.2, "OK:MODE:STOP")
  else if mode = "CONSTANT" then
    ({ s with currentMode := PatternMode.MODE_CONSTANT }, [], "OK:MODE:CONSTANT")
  else if mode = "WAVE" then
    ({ s with currentMode := PatternMode.MODE_WAVE, currentWavePosition := 0 },
     [], "OK:MODE:WAVE")
  else
    (s, [], "ERROR:INVALID_MODE")

/-- `setIntensity`: range-checked update of `globalIntensity`. -/
def setIntensity (value : ℤ) (s : ControlState) :
    ControlState × List (Fin 8 × ℤ) × String :=
  if 0 ≤ value ∧ value ≤ 255 then
    ({ s with globalIntensity := value }, [], "OK:INTENSITY:" ++ toString value)
  else
    (s, [], "ERROR:INTENSITY_OUT_OF_RANGE")

/-- `setWaveSpeed`: range-checked update of `waveSpeed`. -/
def setWaveSpeed (value : ℤ) (s : ControlState) :
    ControlState × List (Fin 8 × ℤ) × String :=
  if 50 ≤ value ∧ value ≤ 500 then
    ({ s with waveSpeed := value }, [], "OK:SPEED:" ++ toString value)
  else
    (s, [], "ERROR:SPEED_OUT_OF_RANGE")

/-- `processCommand`: upper-case the line, then dispatch on its
prefix; unmatched lines produce the unknown-command error. -/
def processCommand (command : String) (s : ControlState) :
    ControlState × List (Fin 8 × ℤ) × String :=
  if startsWithL (upperStr command) ("MODE:") then
    setMode (dropL (upperStr command) 5) s
  else if startsWithL (upperStr command) ("INTENSITY:") then
    setIntensity (arduinoToInt (dropL (upperStr command) 10)) s
  else if startsWithL (upperStr command) ("SPEED:") then
    setWaveSpeed (arduinoToInt (dropL (upperStr command) 6)) s
  else if upperStr command = "STATUS" then (s, [], sendStatus s)
  else (s, [], "ERROR: Unknown command - " ++ upperStr command)

/-- The per-channel wave computation of `executeWavePattern`:
`phase = (i - wavePosition) / 8 * 2 * π`,
`waveValue = (sin phase + 1) / 2`,
`intensity = (int)(waveValue * globalIntensity)`. -/
noncomputable def waveIntensity (wp gI : ℤ) (i : Fin 8) : ℤ :=
  ctrunc ((Real.sin ((((i : ℤ) - wp : ℤ) : ℝ) / 8 * 2 * Real.pi) + 1) / 2 * (gI : ℝ))

/-- One iteration of the wave loop: set motor `i` to its wave
intensity and write it to the channel. -/
noncomputable def waveStep (acc : ControlState × List (Fin 8 × ℤ)) (i : Fin 8) :
    ControlState × List (Fin 8 × ℤ) :=
  let intensity := waveIntensity acc.1.currentWavePosition acc.1.globalIntensity i
  ({ acc.1 with motorIntensities := Function.update acc.1.motorIntensities i intensity },
   acc.2 ++ [(i, intensity)])

/-- `executeWavePattern`: time-gated wave update.  When
`currentTime - lastWaveUpdate >= (unsigned long) waveSpeed` (unsigned
arithmetic), record the timestamp, recompute and write every channel,
and advance the wave position (C `%`, truncating). -/
noncomputable def executeWavePattern (s : ControlState) (now : Nat) :
    ControlState × List (Fin 8 × ℤ) :=
  if ulongOfInt s.waveSpeed ≤ usub32 now s.lastWaveUpdate then
    let r := (List.finRange 8).foldl waveStep ({ s with lastWaveUpdate := now }, [])
    ({ r.1 with currentWavePosition := Int.tmod (r.1.currentWavePosition + 1) 8 }, r.2)
  else (s, [])

/-- One iteration of the `executeConstantPattern` loop: write motor `i`
only when its stored intensity differs from `globalIntensity`. -/
def constantStep (acc : ControlState × List (Fin 8 × ℤ)) (i : Fin 8) :
    ControlState × List (Fin 8 × ℤ) :=
  if acc.1.motorIntensities i ≠ acc.1.globalIntensity then
    ({ acc.1 with
        motorIntensities := Function.update acc.1.motorIntensities i acc.1.globalIntensity },
     acc.2 ++ [(i, acc.1.globalIntensity)])
  else acc

/-- `executeConstantPattern`: converge every channel to
`globalIntensity`, writing only the channels that differ. -/
def executeConstantPattern (s : ControlState) : ControlState × List (Fin 8 × ℤ) :=
  (List.finRange 8).foldl constantStep (s, [])

/-- `executePattern`: one Pattern Engine tick, dispatching on the mode. -/
noncomputable def executePattern (s : ControlState) (now : Nat) :
    ControlState × List (Fin 8 × ℤ) :=
  match s.currentMode with
  | PatternMode.MODE_STOP => (s, [])
  | PatternMode.MODE_CONSTANT => executeConstantPattern s
  | PatternMode.MODE_WAVE => executeWavePattern s now

/-- The state invariants of the spec data model: intensity in [0,255],
wave speed in [50,500], wave position in [0,8), every stored channel
duty in [0,255]. -/
def Inv (s : ControlState) : Prop :=
  (0 ≤ s.globalIntensity ∧ s.globalIntensity ≤ 255) ∧
  (50 ≤ s.waveSpeed ∧ s.waveSpeed ≤ 500) ∧
  (0 ≤ s.currentWavePosition ∧ s.currentWavePosition < 8) ∧
  (∀ i : Fin 8, 0 ≤ s.motorIntensities i ∧ s.motorIntensities i ≤ 255)

instance (s : ControlState) : Decidable (Inv s) := by
  unfold Inv; infer_instance

/-- A concrete wave-mode state used to evaluate the wave generator:
full intensity 255, fresh wave position 0. -/
def waveCexState : ControlState :=
  { initialState with
      currentMode := PatternMode.MODE_WAVE
      globalIntensity := 255 }

/-- The error responses of the command processor: the three validation
errors and the unknown-command report. -/
def isErrorResponse (r : String) : Prop :=
  r = "ERROR:INVALID_MODE" ∨ r = "ERROR:INTENSITY_OUT_OF_RANGE" ∨
    r = "ERROR:SPEED_OUT_OF_RANGE" ∨
    ∃ t : String, r = "ERROR: Unknown command - " ++ t

/-! Section: string-level helper lemmas. -/

lemma take_of_startsWithL {s p : String} (h : startsWithL s p = true) :
    s.data.take p.data.length = p.data := by
  simpa [startsWithL] using h

/-- Two literal prefixes that disagree on their common initial segment
cannot both be prefixes of the same string. -/
lemma startsWithL_disjoint {s p q : String}
    (hpq : p.data.take q.data.length ≠ q.data.take p.data.length)
    (h : startsWithL s p = true) : startsWithL s q = false := by
  rw [startsWithL, decide_eq_false_iff_not]
  intro hq
  apply hpq
  have hp := take_of_startsWithL h
  calc p.data.take q.data.length
      = (s.data.take p.data.length).take q.data.length := by rw [hp]
    _ = s.data.take (min q.data.length p.data.length) := by rw [List.take_take]
    _ = (s.data.take q.data.length).take p.data.length := by
        rw [List.take_take, Nat.min_comm]
    _ = q.data.take p.data.length := by rw [hq]

/-! Section: dispatch lemmas for `processCommand`. -/

lemma processCommand_mode (c : String) (s : ControlState)
    (h : startsWithL (upperStr c) ("MODE:") = true) :
    processCommand c s = setMode (dropL (upperStr c) 5) s := by
  unfold processCommand
  simp [h]

lemma processCommand_intensity (c : String) (s : ControlState)
    (h : startsWithL (upperStr c) ("INTENSITY:") = true) :
    processCommand c s = setIntensity (arduinoToInt (dropL (upperStr c) 10)) s := by
  have h1 : startsWithL (upperStr c) ("MODE:") = false :=
    startsWithL_disjoint (by decide) h
  unfold processCommand
  simp [h, h1]

lemma processCommand_speed (c : String) (s : ControlState)
    (h : startsWithL (upperStr c) ("SPEED:") = true) :
    processCommand c s = setWaveSpeed (arduinoToInt (dropL (upperStr c) 6)) s := by
  have h1 : startsWithL (upperStr c) ("MODE:") = false :=
    startsWithL_disjoint (by decide) h
  have h2 : startsWithL (upperStr c) ("INTENSITY:") = false :=
    startsWithL_disjoint (by decide) h
  unfold processCommand
  simp [h, h1, h2]

lemma processCommand_status (c : String) (s : ControlState)
    (h : upperStr c = "STATUS") :
    processCommand c s = (s, [], sendStatus s) := by
  unfold processCommand
  rw [h]
  rw [if_neg (by decide), if_neg (by decide), if_neg (by decide), if_pos rfl]

lemma processCommand_unknown (c : String) (s : ControlState)
    (h1 : startsWithL (upperStr c) ("MODE:") = false)
    (h2 : startsWithL (upperStr c) ("INTENSITY:") = false)
    (h3 : startsWithL (upperStr c) ("SPEED:") = false)
    (h4 : upperStr c ≠ "STATUS") :
    processCommand c s = (s, [], "ERROR: Unknown command - " ++ upperStr c) := by
  unfold processCommand
  simp [h1, h2, h3, h4]

/-! Section: loop characterizations. -/

/-- Pointwise description of an `update`-per-index loop body. -/
lemma update_if_mem (m f : Fin 8 → ℤ) (a : Fin 8) (l : List (Fin 8)) :
    (fun j => if j ∈ l then f j else Function.update m a (f a) j) =
      fun j => if j ∈ a :: l then f j else m j := by
  funext j
  by_cases hl : j ∈ l
  · simp [hl]
  · by_cases ha : j = a
    · subst ha; simp [hl]
    · simp [hl, ha, Function.update_apply]

lemma foldl_stopStep (l : List (Fin 8)) (s : ControlState) (w : List (Fin 8 × ℤ)) :
    l.foldl stopStep (s, w) =
      ({ s with motorIntensities := fun j => if j ∈ l then 0 else s.motorIntensities j },
       w ++ l.map (fun i => (i, (0 : ℤ)))) := by
  induction l generalizing s w with
  | nil => simp
  | cons a l ih =>
    have hstep : stopStep (s, w) a =
        ({ s with motorIntensities := Function.update s.motorIntensities a 0 },
         w ++ [(a, (0 : ℤ))]) := rfl
    rw [List.foldl_cons, hstep, ih]
    dsimp only
    rw [show (Function.update s.motorIntensities a 0 : Fin 8 → ℤ) =
        Function.update s.motorIntensities a ((fun _ => (0 : ℤ)) a) from rfl]
    rw [update_if_mem s.motorIntensities (fun _ => (0 : ℤ)) a l]
    simp

lemma foldl_waveStep (l : List (Fin 8)) (s : ControlState) (w : List (Fin 8 × ℤ)) :
    l.foldl waveStep (s, w) =
      ({ s with motorIntensities := fun j =>
            if j ∈ l then waveIntensity s.currentWavePosition s.globalIntensity j
            else s.motorIntensities j },
       w ++ l.map (fun i => (i, waveIntensity s.currentWavePosition s.globalIntensity i))) := by
  induction l generalizing s w with
  | nil => simp
  | cons a l ih =>
    have hstep : waveStep (s, w) a =
        ({ s with motorIntensities := Function.update s.motorIntensities a (waveIntensity s.currentWavePosition s.globalIntensity a) },
         w ++ [(a, waveIntensity s.currentWavePosition s.globalIntensity a)]) := rfl
    rw [List.foldl_cons, hstep, ih]
    dsimp only
    rw [update_if_mem s.motorIntensities
      (waveIntensity s.currentWavePosition s.globalIntensity) a l]
    simp

lemma foldl_constantStep (l : List (Fin 8)) (hl : l.Nodup) (s : ControlState)
    (w : List (Fin 8 × ℤ)) :
    l.foldl constantStep (s, w) =
      ({ s with motorIntensities := fun j =>
            if j ∈ l then s.globalIntensity else s.motorIntensities j },
       w ++ (l.filter
              (fun i => decide (s.motorIntensities i ≠ s.globalIntensity))).map
            (fun i => (i, s.globalIntensity))) := by
  induction l generalizing s w with
  | nil => simp
  | cons a l ih =>
    obtain ⟨ha, hl⟩ := List.nodup_cons.mp hl
    rw [List.foldl_cons]
    by_cases hcond : s.motorIntensities a ≠ s.globalIntensity
    · have hstep : constantStep (s, w) a =
          ({ s with motorIntensities :=
              Function.update s.motorIntensities a s.globalIntensity },
           w ++ [(a, s.globalIntensity)]) := by
        unfold constantStep; rw [if_pos hcond]
      rw [hstep, ih hl]
      dsimp only
      have hfil : l.filter
            (fun i => decide (Function.update s.motorIntensities a s.globalIntensity i
              ≠ s.globalIntensity)) =
          l.filter (fun i => decide (s.motorIntensities i ≠ s.globalIntensity)) := by
        refine List.filter_congr ?_
        intro i hi
        have hia : i ≠ a := fun hia => ha (hia ▸ hi)
        rw [Function.update_apply, if_neg hia]
      rw [hfil,
        show (Function.update s.motorIntensities a s.globalIntensity : Fin 8 → ℤ) =
          Function.update s.motorIntensities a
            ((fun _ => s.globalIntensity) a) from rfl,
        update_if_mem s.motorIntensities (fun _ => s.globalIntensity) a l]
      simp [List.filter_cons, hcond]
    · have hstep : constantStep (s, w) a = (s, w) := by
        unfold constantStep; rw [if_neg hcond]
      rw [hstep, ih hl]
      push_neg at hcond
      have hmot : (fun j => if j ∈ l then s.globalIntensity else s.motorIntensities j) =
          fun j => if j ∈ a :: l then s.globalIntensity else s.motorIntensities j := by
        funext j
        by_cases hjl : j ∈ l
        · simp [hjl]
        · by_cases hja : j = a
          · subst hja; simp [hjl, hcond]
          · simp [hjl, hja]
      rw [hmot]
      simp [List.filter_cons, hcond]

lemma stopAllMotors_eq (s : ControlState) :
    stopAllMotors s =
      ({ s with motorIntensities := fun _ => 0 },
       (List.finRange 8).map (fun i => (i, (0 : ℤ)))) := by
  unfold stopAllMotors
  rw [foldl_stopStep]
  simp [List.mem_finRange]

lemma executeConstantPattern_eq (s : ControlState) :
    executeConstantPattern s =
      ({ s with motorIntensities := fun _ => s.globalIntensity },
       ((List.finRange 8).filter
          (fun i => decide (s.motorIntensities i ≠ s.globalIntensity))).map
        (fun i => (i, s.globalIntensity))) := by
  unfold executeConstantPattern
  rw [foldl_constantStep _ (List.nodup_finRange 8)]
  simp [List.mem_finRange]

lemma executeWavePattern_pos (s : ControlState) (now : Nat)
    (h : ulongOfInt s.waveSpeed ≤ usub32 now s.lastWaveUpdate) :
    executeWavePattern s now =
      ({ s with
          lastWaveUpdate := now
          currentWavePosition := Int.tmod (s.currentWavePosition + 1) 8
          motorIntensities :=
            fun j => waveIntensity s.currentWavePosition s.globalIntensity j },
       (List.finRange 8).map
         (fun i => (i, waveIntensity s.currentWavePosition s.globalIntensity i))) := by
  unfold executeWavePattern
  rw [if_pos h]
  simp only [foldl_waveStep]
  simp [List.mem_finRange]

lemma executeWavePattern_neg (s : ControlState) (now : Nat)
    (h : usub32 now s.lastWaveUpdate < ulongOfInt s.waveSpeed) :
    executeWavePattern s now = (s, []) := by
  unfold executeWavePattern
  rw [if_neg (not_le.mpr h)]

lemma executePattern_stop (s : ControlState) (now : Nat)
    (h : s.currentMode = PatternMode.MODE_STOP) :
    executePattern s now = (s, []) := by
  unfold executePattern
  rw [h]

lemma executePattern_constant (s : ControlState) (now : Nat)
    (h : s.currentMode = PatternMode.MODE_CONSTANT) :
    executePattern s now = executeConstantPattern s := by
  unfold executePattern
  rw [h]

lemma executePattern_wave (s : ControlState) (now : Nat)
    (h : s.currentMode = PatternMode.MODE_WAVE) :
    executePattern s now = executeWavePattern s now := by
  unfold executePattern
  rw [h]

/-! Section: wave arithmetic. -/

/-- The wave phase only depends on `(i - wavePosition) mod 8`. -/
lemma sin_wave_arg (z : ℤ) :
    Real.sin ((z : ℝ) / 8 * 2 * Real.pi) =
      Real.sin (((z % 8 : ℤ) : ℝ) / 8 * 2 * Real.pi) := by
  have h8 : ((z % 8 : ℤ) : ℝ) + 8 * ((z / 8 : ℤ) : ℝ) = (z : ℝ) := by
    exact_mod_cast congrArg (fun t : ℤ => (t : ℝ)) (Int.emod_add_ediv z 8)
  have harg : (z : ℝ) / 8 * 2 * Real.pi =
      ((z % 8 : ℤ) : ℝ) / 8 * 2 * Real.pi + ((z / 8 : ℤ) : ℝ) * (2 * Real.pi) := by
    rw [← h8]; ring
  rw [harg, Real.sin_add_int_mul_two_pi]

lemma waveIntensity_emod (wp gI : ℤ) (i : Fin 8) :
    waveIntensity wp gI i =
      ctrunc ((Real.sin (((((i : ℤ) - wp) % 8 : ℤ) : ℝ) / 8 * 2 * Real.pi) + 1) / 2
        * (gI : ℝ)) := by
  unfold waveIntensity
  rw [sin_wave_arg]

lemma waveValue_nonneg (x : ℝ) : 0 ≤ (Real.sin x + 1) / 2 := by
  have := Real.neg_one_le_sin x; linarith

lemma waveValue_le_one (x : ℝ) : (Real.sin x + 1) / 2 ≤ 1 := by
  have := Real.sin_le_one x; linarith

lemma ctrunc_of_nonneg {x : ℝ} (h : 0 ≤ x) : ctrunc x = ⌊x⌋ := if_pos h

lemma waveIntensity_nonneg (wp gI : ℤ) (hgI : 0 ≤ gI) (i : Fin 8) :
    0 ≤ waveIntensity wp gI i := by
  unfold waveIntensity
  have hx : 0 ≤ (Real.sin ((((i : ℤ) - wp : ℤ) : ℝ) / 8 * 2 * Real.pi) + 1) / 2
      * (gI : ℝ) :=
    mul_nonneg (waveValue_nonneg _) (by exact_mod_cast hgI)
  rw [ctrunc_of_nonneg hx]
  exact Int.floor_nonneg.mpr hx

lemma waveIntensity_le (wp gI : ℤ) (hgI : 0 ≤ gI) (i : Fin 8) :
    waveIntensity wp gI i ≤ gI := by
  unfold waveIntensity
  have hgI' : (0 : ℝ) ≤ (gI : ℝ) := by exact_mod_cast hgI
  have hx : 0 ≤ (Real.sin ((((i : ℤ) - wp : ℤ) : ℝ) / 8 * 2 * Real.pi) + 1) / 2
      * (gI : ℝ) :=
    mul_nonneg (waveValue_nonneg _) hgI'
  rw [ctrunc_of_nonneg hx]
  have hle : (Real.sin ((((i : ℤ) - wp : ℤ) : ℝ) / 8 * 2 * Real.pi) + 1) / 2
      * (gI : ℝ) ≤ (gI : ℝ) :=
    mul_le_of_le_one_left hgI' (waveValue_le_one _)
  calc ⌊(Real.sin ((((i : ℤ) - wp : ℤ) : ℝ) / 8 * 2 * Real.pi) + 1) / 2 * (gI : ℝ)⌋
      ≤ ⌊(gI : ℝ)⌋ := Int.floor_le_floor hle
    _ = gI := Int.floor_intCast gI

/-- A channel a quarter of the ring ahead of the wave position gets the
full intensity: its normalized wave value is exactly 1. -/
lemma waveIntensity_peak {wp gI : ℤ} (hgI : 0 ≤ gI) (i : Fin 8)
    (h : ((i : ℤ) - wp) % 8 = 2) : waveIntensity wp gI i = gI := by
  rw [waveIntensity_emod, h]
  have harg : (((2 : ℤ) : ℝ)) / 8 * 2 * Real.pi = Real.pi / 2 := by
    push_cast; ring
  rw [harg, Real.sin_pi_div_two]
  have hx : ((1 : ℝ) + 1) / 2 * (gI : ℝ) = (gI : ℝ) := by ring
  rw [hx, ctrunc_of_nonneg (by exact_mod_cast hgI), Int.floor_intCast]

/-- A channel three quarters of the ring ahead of the wave position gets
zero: its normalized wave value is exactly 0. -/
lemma waveIntensity_trough {wp gI : ℤ} (i : Fin 8)
    (h : ((i : ℤ) - wp) % 8 = 6) : waveIntensity wp gI i = 0 := by
  rw [waveIntensity_emod, h]
  have harg : (((6 : ℤ) : ℝ)) / 8 * 2 * Real.pi = -(Real.pi / 2) + 2 * Real.pi := by
    push_cast; ring
  rw [harg, Real.sin_add_two_pi, Real.sin_neg, Real.sin_pi_div_two]
  have hx : ((-1 : ℝ) + 1) / 2 * (gI : ℝ) = 0 := by ring
  rw [hx, ctrunc_of_nonneg le_rfl]
  exact Int.floor_zero

/-- The channel at the wave position itself gets normalized value 1/2,
hence duty `⌊gI / 2⌋`, not the maximum. -/
lemma waveIntensity_at_zero {wp gI : ℤ} (i : Fin 8)
    (h : ((i : ℤ) - wp) % 8 = 0) :
    waveIntensity wp gI i = ctrunc ((gI : ℝ) / 2) := by
  rw [waveIntensity_emod, h]
  have harg : (((0 : ℤ) : ℝ)) / 8 * 2 * Real.pi = 0 := by push_cast; ring
  rw [harg, Real.sin_zero]
  have hx : ((0 : ℝ) + 1) / 2 * (gI : ℝ) = (gI : ℝ) / 2 := by ring
  rw [hx]

/-- The channel half the ring ahead of the wave position also gets
normalized value 1/2 (sine of π), not the minimum. -/
lemma waveIntensity_at_half {wp gI : ℤ} (i : Fin 8)
    (h : ((i : ℤ) - wp) % 8 = 4) :
    waveIntensity wp gI i = ctrunc ((gI : ℝ) / 2) := by
  rw [waveIntensity_emod, h]
  have harg : (((4 : ℤ) : ℝ)) / 8 * 2 * Real.pi = Real.pi := by push_cast; ring
  rw [harg, Real.sin_pi]
  have hx : ((0 : ℝ) + 1) / 2 * (gI : ℝ) = (gI : ℝ) / 2 := by ring
  rw [hx]

lemma ctrunc_255_half : ctrunc (((255 : ℤ) : ℝ) / 2) = 127 := by
  rw [ctrunc_of_nonneg (by norm_num), Int.floor_eq_iff]
  norm_num

/-! Section: parse-failure and response-shape lemmas. -/

lemma atoiDigits_of_headDigit_false {cs : List Char} (h : headDigit cs = false) :
    atoiDigits cs 0 = 0 := by
  cases cs with
  | nil => rfl
  | cons d ds =>
    have hd : d.isDigit = false := h
    unfold atoiDigits
    rw [if_neg (by simp [hd])]

lemma atoiChars_of_numberStart_false {l : List Char} (h : numberStart l = false) :
    atoiChars l = 0 := by
  induction l with
  | nil => rfl
  | cons c cs ih =>
    unfold numberStart at h
    unfold atoiChars
    by_cases hws : c.isWhitespace
    · rw [if_pos hws] at h ⊢
      exact ih h
    · rw [if_neg hws] at h ⊢
      by_cases hsign : c = '-' ∨ c = '+'
      · rw [if_pos hsign] at h
        rcases hsign with hm | hp
        · rw [if_pos hm, atoiDigits_of_headDigit_false h, neg_zero]
        · have hcm : ¬(c = '-') := by
            intro hcm; rw [hcm] at hp; exact absurd hp (by decide)
          rw [if_neg hcm, if_pos hp, atoiDigits_of_headDigit_false h]
      · rw [if_neg hsign] at h
        have hcm : ¬(c = '-') := fun hc => hsign (Or.inl hc)
        have hcp : ¬(c = '+') := fun hc => hsign (Or.inr hc)
        rw [if_neg hcm, if_neg hcp]
        exact atoiDigits_of_headDigit_false (by simpa [headDigit] using h)

lemma head_append (a b : String) (c : Char) (h : a.data.head? = some c) :
    (a ++ b).data.head? = some c := by
  obtain ⟨ad⟩ := a
  obtain ⟨bd⟩ := b
  show (ad ++ bd).head? = some c
  cases ad with
  | nil => exact absurd h (by simp)
  | cons x xs => simpa using h

lemma not_isError_of_headO {r : String} (h : r.data.head? = some 'O') :
    ¬ isErrorResponse r := by
  intro herr
  rcases herr with rfl | rfl | rfl | ⟨t, rfl⟩
  · exact absurd h (by decide)
  · exact absurd h (by decide)
  · exact absurd h (by decide)
  · rw [head_append ("ERROR: Unknown command - ") t 'E' (by decide)] at h
    exact absurd h (by decide)

/-! Section: invariant preservation helpers. -/

lemma Inv_setMode (m : String) (s : ControlState) (hs : Inv s) :
    Inv (setMode m s).1 := by
  obtain ⟨h1, h2, h3, h4⟩ := hs
  unfold setMode
  split_ifs
  · simp only [stopAllMotors_eq]
    exact ⟨h1, h2, h3, fun i => ⟨le_refl 0, by norm_num⟩⟩
  · exact ⟨h1, h2, h3, h4⟩
  · exact ⟨h1, h2, ⟨le_refl 0, by norm_num⟩, h4⟩
  · exact ⟨h1, h2, h3, h4⟩

lemma Inv_setIntensity (v : ℤ) (s : ControlState) (hs : Inv s) :
    Inv (setIntensity v s).1 := by
  obtain ⟨h1, h2, h3, h4⟩ := hs
  unfold setIntensity
  split_ifs with hv
  · exact ⟨⟨hv.1, hv.2⟩, h2, h3, h4⟩
  · exact ⟨h1, h2, h3, h4⟩

lemma Inv_setWaveSpeed (v : ℤ) (s : ControlState) (hs : Inv s) :
    Inv (setWaveSpeed v s).1 := by
  obtain ⟨h1, h2, h3, h4⟩ := hs
  unfold setWaveSpeed
  split_ifs with hv
  · exact ⟨h1, ⟨hv.1, hv.2⟩, h3, h4⟩
  · exact ⟨h1, h2, h3, h4⟩

/-! Section: claim theorems. -/

/-- C2: the wave generator's body (writing duties, updating the
timestamp, advancing the wave position) executes exactly when
`now - lastUpdateTimestamp >= waveSpeed` in fixed-width unsigned
arithmetic; below the interval the tick changes nothing and writes
nothing, so wave updates never occur more often than once per
`waveSpeed` milliseconds. -/
theorem wave_update_gating : ∀ (s : ControlState) (now : Nat),
    (usub32 now s.lastWaveUpdate < ulongOfInt s.waveSpeed →
      executeWavePattern s now = (s, [])) ∧
    (ulongOfInt s.waveSpeed ≤ usub32 now s.lastWaveUpdate →
      (executeWavePattern s now).1.lastWaveUpdate = now ∧
      (executeWavePattern s now).1.currentWavePosition =
        Int.tmod (s.currentWavePosition + 1) 8 ∧
      (executeWavePattern s now).2 ≠ []) := by
  intro s now
  constructor
  · intro h
    exact executeWavePattern_neg s now h
  · intro h
    rw [executeWavePattern_pos s now h]
    refine ⟨rfl, rfl, ?_⟩
    intro hnil
    rw [List.map_eq_nil_iff] at hnil
    exact absurd hnil (by decide)

/-- Witness for C2 at concrete clock values: 5 ms after reset nothing
happens (5 < 100), at 100 ms the timestamp is taken. -/
theorem wave_update_gating_witness :
    executeWavePattern initialState 5 = (initialState, []) ∧
    (executeWavePattern initialState 100).1.lastWaveUpdate = 100 := by
  exact ⟨(wave_update_gating initialState 5).1 (by decide),
    ((wave_update_gating initialState 100).2 (by decide)).1⟩

/-- C3: in Constant mode with `globalIntensity = I`, one engine tick
makes every channel duty equal `I`, and the Output Sink is invoked
exactly for the channels whose duty differed from `I` before the tick. -/
theorem constant_mode_tick : ∀ (s : ControlState) (now : Nat),
    s.currentMode = PatternMode.MODE_CONSTANT →
    (∀ i : Fin 8, (executePattern s now).1.motorIntensities i = s.globalIntensity) ∧
    ((executePattern s now).2 =
      ((List.finRange 8).filter
          (fun i => decide (s.motorIntensities i ≠ s.globalIntensity))).map
        (fun i => (i, s.globalIntensity))) ∧
    (∀ i : Fin 8,
      ((i, s.globalIntensity) ∈ (executePattern s now).2 ↔
        s.motorIntensities i ≠ s.globalIntensity)) := by
  intro s now hm
  rw [executePattern_constant s now hm, executeConstantPattern_eq]
  refine ⟨fun i => rfl, rfl, ?_⟩
  intro i
  simp [List.mem_map, List.mem_filter, List.mem_finRange]

/-- Witness for C3 from the initial state switched to Constant mode:
every duty becomes 128 and channel 0 is written (it previously held 0). -/
theorem constant_mode_tick_witness :
    (executePattern { initialState with currentMode := PatternMode.MODE_CONSTANT } 0).1.motorIntensities 0 = 128 ∧
    (((0 : Fin 8), (128 : ℤ)) ∈
      (executePattern { initialState with currentMode := PatternMode.MODE_CONSTANT } 0).2) := by
  have h := constant_mode_tick
    { initialState with currentMode := PatternMode.MODE_CONSTANT } 0 rfl
  exact ⟨h.1 0, (h.2.2 0).mpr (by decide)⟩

/-- C4: the command `MODE:STOP` always sets the mode to Stopped, zeroes
every channel duty, and writes duty 0 to every channel. -/
theorem mode_stop_command : ∀ (s : ControlState),
    processCommand ("MODE:STOP") s =
      ({ s with
          currentMode := PatternMode.MODE_STOP
          motorIntensities := fun _ => 0 },
       (List.finRange 8).map (fun i => (i, (0 : ℤ))), "OK:MODE:STOP") := by
  intro s
  rw [processCommand_mode _ _ (by decide)]
  have hd : dropL (upperStr ("MODE:STOP")) 5 = "STOP" := by decide
  rw [hd]
  unfold setMode
  rw [if_pos rfl]
  simp only [stopAllMotors_eq]

/-- C8: the command `MODE:WAVE` sets the mode to Wave and resets the
wave position to 0, leaving every other field (duties, timestamp,
intensity, speed) unchanged and writing nothing. -/
theorem mode_wave_command : ∀ (s : ControlState),
    processCommand ("MODE:WAVE") s =
      ({ s with
          currentMode := PatternMode.MODE_WAVE
          currentWavePosition := 0 },
       [], "OK:MODE:WAVE") := by
  intro s
  rw [processCommand_mode _ _ (by decide)]
  have hd : dropL (upperStr ("MODE:WAVE")) 5 = "WAVE" := by decide
  rw [hd]
  unfold setMode
  rw [if_neg (by decide), if_neg (by decide), if_pos rfl]

/-- C6 (amended): a line matching none of the command patterns yields
`ERROR: Unknown command - ` followed by the UPPER-CASED text of the
line (the handler upper-cases in place before echoing), and leaves the
state unchanged with no output writes. -/
theorem unknown_command_effect : ∀ (c : String) (s : ControlState),
    startsWithL (upperStr c) ("MODE:") = false →
    startsWithL (upperStr c) ("INTENSITY:") = false →
    startsWithL (upperStr c) ("SPEED:") = false →
    upperStr c ≠ "STATUS" →
    processCommand c s = (s, [], "ERROR: Unknown command - " ++ upperStr c) := by
  intro c s h1 h2 h3 h4
  exact processCommand_unknown c s h1 h2 h3 h4

/-- Counterexample to C6 as stated: for the line `foo:1` the response
echoes `FOO:1`, not the original text `foo:1`. -/
theorem unknown_command_cex :
    (processCommand ("foo:1") initialState).2.2 = "ERROR: Unknown command - FOO:1" ∧
    (processCommand ("foo:1") initialState).2.2 ≠ "ERROR: Unknown command - foo:1" := by
  exact ⟨by decide, by decide⟩

/-- Witness for C6 (amended) at the line `foo:1`. -/
theorem unknown_command_effect_witness :
    processCommand ("foo:1") initialState =
      (initialState, [], "ERROR: Unknown command - " ++ upperStr ("foo:1")) := by
  exact unknown_command_effect ("foo:1") initialState (by decide) (by decide)
    (by decide) (by decide)

/-- C5: a numeric token that does not parse as a number is treated as 0
and routed through the range check: such an `INTENSITY:` command
succeeds with `OK:INTENSITY:0` and sets the intensity to 0, while such
a `SPEED:` command fails with `ERROR:SPEED_OUT_OF_RANGE` and changes
nothing. -/
theorem numeric_parse_failure : ∀ (c : String) (s : ControlState),
    (startsWithL (upperStr c) ("INTENSITY:") = true →
      numberStart (dropL (upperStr c) 10).data = false →
      processCommand c s = ({ s with globalIntensity := 0 }, [], "OK:INTENSITY:0")) ∧
    (startsWithL (upperStr c) ("SPEED:") = true →
      numberStart (dropL (upperStr c) 6).data = false →
      processCommand c s = (s, [], "ERROR:SPEED_OUT_OF_RANGE")) := by
  intro c s
  constructor
  · intro h hn
    rw [processCommand_intensity c s h]
    have hz : arduinoToInt (dropL (upperStr c) 10) = 0 :=
      atoiChars_of_numberStart_false hn
    rw [hz]
    unfold setIntensity
    rw [if_pos (by norm_num)]
    have hresp : ("OK:INTENSITY:" ++ toString (0 : ℤ)) = "OK:INTENSITY:0" := by decide
    rw [hresp]
  · intro h hn
    rw [processCommand_speed c s h]
    have hz : arduinoToInt (dropL (upperStr c) 6) = 0 :=
      atoiChars_of_numberStart_false hn
    rw [hz]
    unfold setWaveSpeed
    rw [if_neg (by norm_num)]

/-- Witness for C5: `INTENSITY:ABC` succeeds with value 0, `SPEED:XYZ`
is rejected as out of range. -/
theorem numeric_parse_failure_witness :
    processCommand ("INTENSITY:ABC") initialState =
      ({ initialState with globalIntensity := 0 }, [], "OK:INTENSITY:0") ∧
    processCommand ("SPEED:XYZ") initialState =
      (initialState, [], "ERROR:SPEED_OUT_OF_RANGE") := by
  exact ⟨(numeric_parse_failure ("INTENSITY:ABC") initialState).1 (by decide) (by decide),
    (numeric_parse_failure ("SPEED:XYZ") initialState).2 (by decide) (by decide)⟩

/-- C7: an `INTENSITY:` command whose token parses to `n` succeeds
(with `OK:INTENSITY:n`, setting the intensity to `n`) iff
`0 ≤ n ≤ 255`; otherwise it answers `ERROR:INTENSITY_OUT_OF_RANGE`
and changes nothing; after a success a `STATUS` command reports
`INTENSITY:n`. -/
theorem intensity_range_check : ∀ (n : ℤ) (c : String) (s : ControlState),
    startsWithL (upperStr c) ("INTENSITY:") = true →
    arduinoToInt (dropL (upperStr c) 10) = n →
    ((0 ≤ n ∧ n ≤ 255) →
      processCommand c s =
        ({ s with globalIntensity := n }, [], "OK:INTENSITY:" ++ toString n) ∧
      processCommand ("STATUS") { s with globalIntensity := n } =
        ({ s with globalIntensity := n }, [],
         "STATUS:MODE:" ++ modeString s.currentMode ++ ",INTENSITY:"
           ++ toString n ++ ",SPEED:" ++ toString s.waveSpeed)) ∧
    (¬(0 ≤ n ∧ n ≤ 255) →
      processCommand c s = (s, [], "ERROR:INTENSITY_OUT_OF_RANGE")) := by
  intro n c s h hparse
  constructor
  · intro hr
    constructor
    · rw [processCommand_intensity c s h, hparse]
      unfold setIntensity
      rw [if_pos hr]
    · rw [processCommand_status ("STATUS") _ (by decide)]
      rfl
  · intro hr
    rw [processCommand_intensity c s h, hparse]
    unfold setIntensity
    rw [if_neg hr]

/-- Witness for C7: `INTENSITY:42` succeeds and STATUS reports it;
`INTENSITY:300` is rejected and the state is untouched. -/
theorem intensity_range_check_witness :
    processCommand ("INTENSITY:42") initialState =
      ({ initialState with globalIntensity := 42 }, [], "OK:INTENSITY:" ++ toString (42 : ℤ)) ∧
    processCommand ("INTENSITY:300") initialState =
      (initialState, [], "ERROR:INTENSITY_OUT_OF_RANGE") := by
  exact ⟨((intensity_range_check 42 ("INTENSITY:42") initialState (by decide)
      (by decide)).1 (by norm_num)).1,
    (intensity_range_check 300 ("INTENSITY:300") initialState (by decide)
      (by decide)).2 (by omega)⟩

/-- C10: every command whose response is one of the error responses
leaves the whole control state unchanged and performs no output writes
(error atomicity). -/
theorem error_atomicity : ∀ (c : String) (s : ControlState),
    isErrorResponse (processCommand c s).2.2 →
    (processCommand c s).1 = s ∧ (processCommand c s).2.1 = [] := by
  intro c s herr
  unfold processCommand setMode setIntensity setWaveSpeed at herr ⊢
  split_ifs at herr ⊢ <;>
    first
      | exact ⟨rfl, rfl⟩
      | exact absurd herr (not_isError_of_headO (by rfl))

/-- Witness for C10: `MODE:XYZ` answers `ERROR:INVALID_MODE` and leaves
the initial state untouched. -/
theorem error_atomicity_witness :
    (processCommand ("MODE:XYZ") initialState).1 = initialState ∧
    (processCommand ("MODE:XYZ") initialState).2.1 = [] := by
  exact error_atomicity ("MODE:XYZ") initialState (Or.inl (by decide))

/-- C9: the data-model invariants (intensity in [0,255], speed in
[50,500], wave position in [0,8), all duties in [0,255]) hold in the
initial state and are preserved by every command dispatch and every
Pattern Engine tick. -/
theorem controlstate_invariants :
    Inv initialState ∧
    (∀ (c : String) (s : ControlState), Inv s → Inv (processCommand c s).1) ∧
    (∀ (s : ControlState) (now : Nat), Inv s → Inv (executePattern s now).1) := by
  refine ⟨by decide, ?_, ?_⟩
  · intro c s hs
    unfold processCommand
    split_ifs
    · exact Inv_setMode _ _ hs
    · exact Inv_setIntensity _ _ hs
    · exact Inv_setWaveSpeed _ _ hs
    · exact hs
    · exact hs
  · intro s now hs
    cases hm : s.currentMode with
    | MODE_STOP =>
      rw [executePattern_stop s now hm]
      exact hs
    | MODE_CONSTANT =>
      rw [executePattern_constant s now hm, executeConstantPattern_eq]
      obtain ⟨h1, h2, h3, h4⟩ := hs
      exact ⟨h1, h2, h3, fun i => ⟨h1.1, h1.2⟩⟩
    | MODE_WAVE =>
      rw [executePattern_wave s now hm]
      rcases le_or_lt (ulongOfInt s.waveSpeed) (usub32 now s.lastWaveUpdate) with h | h
      · rw [executeWavePattern_pos s now h]
        obtain ⟨h1, h2, h3, h4⟩ := hs
        refine ⟨h1, h2, ?_, ?_⟩
        · obtain ⟨hw0, hw8⟩ := h3
          show 0 ≤ Int.tmod (s.currentWavePosition + 1) 8 ∧
            Int.tmod (s.currentWavePosition + 1) 8 < 8
          set wp := s.currentWavePosition with hwp
          interval_cases wp <;> exact ⟨by decide, by decide⟩
        · intro i
          exact ⟨waveIntensity_nonneg _ _ h1.1 i,
            le_trans (waveIntensity_le _ _ h1.1 i) h1.2⟩
      · rw [executeWavePattern_neg s now h]
        exact hs

/-- Witness for C9: the invariants hold initially, after an
`INTENSITY:200` command, and after one engine tick at time 0. -/
theorem controlstate_invariants_witness :
    Inv initialState ∧
    Inv (processCommand ("INTENSITY:200") initialState).1 ∧
    Inv (executePattern initialState 0).1 := by
  exact ⟨controlstate_invariants.1,
    controlstate_invariants.2.1 ("INTENSITY:200") initialState (by decide),
    controlstate_invariants.2.2 initialState 0 (by decide)⟩

/-- C1 (amended): on every gated Wave tick, the peak (duty
`globalIntensity`, normalized wave value 1) is at channel
`(wavePosition + 2) mod 8` — a quarter of the ring ahead of
`wavePosition` — and the trough (duty 0, normalized wave value 0) is at
channel `(wavePosition + 6) mod 8`, for every in-range `wavePosition`
and every nonnegative `globalIntensity`. -/
theorem wave_peak_quarter_ahead : ∀ (s : ControlState) (now : Nat),
    s.currentMode = PatternMode.MODE_WAVE →
    ulongOfInt s.waveSpeed ≤ usub32 now s.lastWaveUpdate →
    0 ≤ s.currentWavePosition → s.currentWavePosition < 8 →
    0 ≤ s.globalIntensity →
    ∀ jmax jmin : Fin 8,
      (jmax : ℤ) = (s.currentWavePosition + 2) % 8 →
      (jmin : ℤ) = (s.currentWavePosition + 6) % 8 →
      (executePattern s now).1.motorIntensities jmax = s.globalIntensity ∧
      (executePattern s now).1.motorIntensities jmin = 0 ∧
      (∀ i : Fin 8, (executePattern s now).1.motorIntensities i ≤
        (executePattern s now).1.motorIntensities jmax) ∧
      (∀ i : Fin 8, (executePattern s now).1.motorIntensities jmin ≤
        (executePattern s now).1.motorIntensities i) := by
  intro s now hm hg hw0 hw8 hgI jmax jmin hjmax hjmin
  rw [executePattern_wave s now hm, executeWavePattern_pos s now hg]
  dsimp only
  have hpk : ((jmax : ℤ) - s.currentWavePosition) % 8 = 2 := by omega
  have htr : ((jmin : ℤ) - s.currentWavePosition) % 8 = 6 := by omega
  have h1 := waveIntensity_peak hgI jmax hpk
  have h2 : waveIntensity s.currentWavePosition s.globalIntensity jmin = 0 :=
    waveIntensity_trough jmin htr
  refine ⟨h1, h2, ?_, ?_⟩
  · intro i
    rw [h1]
    exact waveIntensity_le _ _ hgI i
  · intro i
    rw [h2]
    exact waveIntensity_nonneg _ _ hgI i

/-- Counterexample to C1 as stated: with `wavePosition = 0` and
intensity 255, channel 0 (the wave position) gets duty 127, strictly
less than channel 2's duty 255, and channel 4 (opposite the wave
position) gets duty 127, strictly more than channel 6's duty 0: the
peak is not at `wavePosition` and the trough is not at
`wavePosition + 4`. -/
theorem wave_peak_cex :
    (executePattern waveCexState 100).1.motorIntensities 0 <
      (executePattern waveCexState 100).1.motorIntensities 2 ∧
    (executePattern waveCexState 100).1.motorIntensities 6 <
      (executePattern waveCexState 100).1.motorIntensities 4 := by
  have hg : ulongOfInt waveCexState.waveSpeed ≤ usub32 100 waveCexState.lastWaveUpdate := by
    decide
  rw [executePattern_wave waveCexState 100 rfl, executeWavePattern_pos waveCexState 100 hg]
  dsimp only
  have h0 : waveIntensity waveCexState.currentWavePosition waveCexState.globalIntensity 0 =
      ctrunc (((255 : ℤ) : ℝ) / 2) :=
    waveIntensity_at_zero 0 (by decide)
  have h2 : waveIntensity waveCexState.currentWavePosition waveCexState.globalIntensity 2 =
      (255 : ℤ) :=
    waveIntensity_peak (by decide) 2 (by decide)
  have h4 : waveIntensity waveCexState.currentWavePosition waveCexState.globalIntensity 4 =
      ctrunc (((255 : ℤ) : ℝ) / 2) :=
    waveIntensity_at_half 4 (by decide)
  have h6 : waveIntensity waveCexState.currentWavePosition waveCexState.globalIntensity 6 =
      (0 : ℤ) :=
    waveIntensity_trough 6 (by decide)
  rw [h0, h2, h4, h6, ctrunc_255_half]
  norm_num

/-- Witness for C1 (amended) from a fresh wave state at intensity 128:
the peak is at channel 2 and the trough at channel 6. -/
theorem wave_peak_quarter_ahead_witness :
    (executePattern { initialState with currentMode := PatternMode.MODE_WAVE } 100).1.motorIntensities (2 : Fin 8) = 128 ∧
    (executePattern { initialState with currentMode := PatternMode.MODE_WAVE } 100).1.motorIntensities (6 : Fin 8) = 0 := by
  have h := wave_peak_quarter_ahead
    { initialState with currentMode := PatternMode.MODE_WAVE } 100 rfl (by decide)
    (by decide) (by decide) (by decide) (2 : Fin 8) (6 : Fin 8) (by decide) (by decide)
  exact ⟨h.1, h.2.1⟩

end SmartSheet
